import Mathlib

/-!
# looptree-mapper: EinsumSet, Memo, Mapper::Run and the SIGINT handler

A shallow embedding of `src/applications/looptree-mapper/main.cpp`.

* `std::set<EinsumId>` is a `Finset` of ids.
* `size_t hash_` is a natural number.  The only arithmetic on it is `^=`, and the XOR of two
  values below `2 ^ 64` is again below `2 ^ 64` (`AddEinsum_hash_lt`, `RemoveEinsum_hash_lt`),
  so no reduction modulo the word size is ever needed.
* `std::unordered_map<EinsumSet, T>` is the list of its nodes; `find` first goes through
  `std::hash<EinsumSet>` and then through key equality.
* Statements that mutate an object return the updated object.
-/

namespace LooptreeMapper

/-! ## Data model -/

/-- Modelled from the spec: `problem::EinsumId` is declared in `workload/fused-workload.hpp`,
which is not among the sources; the spec describes it as an opaque small integer identifier. -/
abbrev EinsumId := Nat

/-- The struct `EinsumSet` (main.cpp lines 14-36): its two data members. -/
structure EinsumSet where
  einsums_ : Finset EinsumId
  hash_ : Nat
  deriving DecidableEq

namespace EinsumSet

/-- A default-constructed `EinsumSet`: `einsums_` is empty.  The source gives `hash_` no
initialiser, so its first value `h0` is whatever the storage holds; value-initialisation
(`EinsumSet{}`) makes it `0`. -/
def fresh (h0 : Nat) : EinsumSet :=
  { einsums_ := ∅, hash_ := h0 }

/-- AddEinsum (lines 16-20): `einsums_.emplace(einsum); hash_ ^= einsum;`. -/
def AddEinsum (s : EinsumSet) (einsum : EinsumId) : EinsumSet :=
  { einsums_ := insert einsum s.einsums_, hash_ := s.hash_ ^^^ einsum }

/-- RemoveEinsum (lines 22-26): `einsums_.erase(einsum); hash_ ^= einsum;`. -/
def RemoveEinsum (s : EinsumSet) (einsum : EinsumId) : EinsumSet :=
  { einsums_ := s.einsums_.erase einsum, hash_ := s.hash_ ^^^ einsum }

/-- GetHash (lines 28-31). -/
def GetHash (s : EinsumSet) : Nat :=
  s.hash_

end EinsumSet

/-- One call made on an `EinsumSet`. -/
inductive EinsumOp where
  | add (e : EinsumId)
  | remove (e : EinsumId)
  deriving DecidableEq

/-- The id a call is made on. -/
def EinsumOp.target : EinsumOp → EinsumId
  | .add e => e
  | .remove e => e

/-- The effect of one call. -/
def EinsumSet.run (s : EinsumSet) : EinsumOp → EinsumSet
  | .add e => s.AddEinsum e
  | .remove e => s.RemoveEinsum e

/-- A finite sequence of calls, applied left to right. -/
def EinsumSet.runAll (s : EinsumSet) (ops : List EinsumOp) : EinsumSet :=
  ops.foldl EinsumSet.run s

instance xorCommutative : Std.Commutative (α := Nat) (· ^^^ ·) :=
  ⟨Nat.xor_comm⟩

instance xorAssociative : Std.Associative (α := Nat) (· ^^^ ·) :=
  ⟨Nat.xor_assoc⟩

/-- The XOR of the ids that are members of the set. -/
def EinsumSet.xorOfMembers (s : EinsumSet) : Nat :=
  s.einsums_.fold (· ^^^ ·) 0 id

/-- Whether a call keeps to the discipline of a set: AddEinsum on an id that is not a member,
RemoveEinsum on an id that is one. -/
def EinsumSet.admits (s : EinsumSet) : EinsumOp → Bool
  | .add e => decide (e ∉ s.einsums_)
  | .remove e => decide (e ∈ s.einsums_)

/-- Whether every call of a sequence keeps to that discipline at the moment it is made. -/
def EinsumSet.admitsAll : EinsumSet → List EinsumOp → Bool
  | _, [] => true
  | s, op :: ops => s.admits op && (s.run op).admitsAll ops

/-! ## Memo -/

/-- The specialisation `std::hash<EinsumSet>` (lines 38-45): `return set.GetHash();`. -/
def hashEinsumSet (set : EinsumSet) : Nat :=
  set.GetHash

/-- Modelled from the spec: `operator==` of EinsumSet, the key equality that
`std::unordered_map<EinsumSet, T>` calls and that the source never defines.  "Two
EinsumSubsets are equal iff their member sets are equal." -/
def EinsumSet.Equals (a b : EinsumSet) : Bool :=
  decide (a.einsums_ = b.einsums_)

/-- The template struct `Memo<T>` (lines 57-81): its data member `memo_`, the nodes of the
`std::unordered_map<EinsumSet, T>` as (key, value) pairs. -/
structure Memo (T : Type) where
  memo_ : List (EinsumSet × T)

namespace Memo

variable {T : Type}

/-- A default-constructed `Memo<T>`: the map has no node. -/
def empty : Memo T :=
  { memo_ := [] }

/-- The test `memo_.find` makes on a node: the hash lookup (`std::hash<EinsumSet>` of the key of
the node against that of the searched key), then the full comparison of the keys. -/
def keyMatch (key : EinsumSet) (node : EinsumSet × T) : Bool :=
  hashEinsumSet node.1 == hashEinsumSet key && node.1.Equals key

/-- The call `memo_.find(key)`: the node found, `none` standing for `memo_.end()`. -/
def find (m : Memo T) (key : EinsumSet) : Option (EinsumSet × T) :=
  m.memo_.find? (keyMatch key)

/-- GetMemoizedValue (lines 60-72): `std::nullopt` when `find` gives `memo_.end()`, else a
reference to the value of the node. -/
def GetMemoizedValue (m : Memo T) (einsum_set : EinsumSet) : Option T :=
  match m.find einsum_set with
  | none => none
  | some it => some it.2

/-- Memoize (lines 74-77): `memo_.emplace(einsum_set, val);`, which adds a node only when no
node with that key is in the map. -/
def Memoize (m : Memo T) (einsum_set : EinsumSet) (val : T) : Memo T :=
  match m.find einsum_set with
  | some _ => m
  | none => { memo_ := m.memo_ ++ [(einsum_set, val)] }

/-- A sequence of `Memoize` calls, made in order. -/
def memoizeAll (m : Memo T) (calls : List (EinsumSet × T)) : Memo T :=
  calls.foldl (fun acc c => acc.Memoize c.1 c.2) m

end Memo

/-! ## Mapper -/

/-- The struct `Mapper` (lines 85-108); `MapperResult` is only declared in the source. -/
structure Mapper (MapperResult : Type) where
  memo_ : Memo MapperResult

/-- What a call of `Mapper::Run` leaves behind: the value of the `return` statement that was
executed (`none` when control reaches the closing brace of the function without one), the
Mapper, and the set `cur_fused_set` refers to. -/
structure RunOutcome (MapperResult : Type) where
  returned : Option MapperResult
  mapper : Mapper MapperResult
  cur_fused_set : EinsumSet

namespace Mapper

variable {MapperResult : Type}

/-- The loop `while (dfs_stack.size() > 0)` of `Run` (lines 97-103): take the back of the
stack, pop it, add it to `cur_fused_set`.  The head of the list is the back of the vector. -/
def drainStack : List EinsumId → EinsumSet → EinsumSet
  | [], cur_fused_set => cur_fused_set
  | e :: dfs_stack, cur_fused_set => drainStack dfs_stack (cur_fused_set.AddEinsum e)

/-- Mapper::Run (lines 87-104). -/
def Run (self : Mapper MapperResult) (cur_fused_set rest_of_einsums : EinsumSet) :
    RunOutcome MapperResult :=
  match self.memo_.GetMemoizedValue rest_of_einsums with
  | some memoized_val => { returned := some memoized_val, mapper := self,
                           cur_fused_set := cur_fused_set }
  | none =>
    let dfs_stack : List EinsumId := []
    { returned := none, mapper := self, cur_fused_set := drainStack dfs_stack cur_fused_set }

end Mapper

/-! ## The signal handler -/

/-- The part of the process state `handler` touches: the flag `gTerminateEval`, the lines
written to `std::cerr` (one per `std::endl`), and the status passed to `exit` once it has been
called. -/
structure ProcState where
  gTerminateEval : Bool
  cerr : List String
  exitStatus : Option Nat
  deriving DecidableEq

/-- Whether `exit` has been called. -/
def ProcState.exited (st : ProcState) : Bool :=
  st.exitStatus.isSome

/-- Modelled from the spec: the state at program start.  `gTerminateEval` is only declared
`extern` in this file, its definition is in another translation unit; the flag is the
cancellation signal, clear until the first request.  Nothing is written yet and `exit` has not
been called. -/
def ProcState.start : ProcState :=
  { gTerminateEval := false, cerr := [], exitStatus := none }

/-- The line of the first branch (lines 144-146). -/
def firstNotice (strsignal : Int → String) (s : Int) : String :=
  "First " ++ strsignal s ++ " caught. Abandoning " ++
    "ongoing evaluation and terminating immediately."

/-- The line of the second branch (lines 151-152). -/
def secondNotice (strsignal : Int → String) (s : Int) : String :=
  "Second " ++ strsignal s ++ " caught. Existing disgracefully."

/-- The function handler (lines 140-155); `strsignal` is the C library function. -/
def handler (strsignal : Int → String) (s : Int) (st : ProcState) : ProcState :=
  if !st.gTerminateEval then
    { st with cerr := st.cerr ++ [firstNotice strsignal s], gTerminateEval := true }
  else
    { st with cerr := st.cerr ++ [secondNotice strsignal s], exitStatus := some 0 }

/-- Delivery of one signal: the handler runs, unless the process has exited already. -/
def deliver (strsignal : Int → String) (st : ProcState) (s : Int) : ProcState :=
  if st.exited then st else handler strsignal s st

/-- Delivery of a sequence of signals, in order. -/
def deliverAll (strsignal : Int → String) (st : ProcState) (signals : List Int) : ProcState :=
  signals.foldl (deliver strsignal) st

/-! ## Helper lemmas on EinsumSet -/

theorem AddEinsum_hash_lt (s : EinsumSet) (e : EinsumId)
    (hs : s.hash_ < 2 ^ 64) (he : e < 2 ^ 64) : (s.AddEinsum e).hash_ < 2 ^ 64 :=
  Nat.xor_lt_two_pow hs he

theorem RemoveEinsum_hash_lt (s : EinsumSet) (e : EinsumId)
    (hs : s.hash_ < 2 ^ 64) (he : e < 2 ^ 64) : (s.RemoveEinsum e).hash_ < 2 ^ 64 :=
  Nat.xor_lt_two_pow hs he

theorem xor_swap (h a b : Nat) : (h ^^^ a) ^^^ b = (h ^^^ b) ^^^ a := by
  rw [Nat.xor_assoc, Nat.xor_comm a b, ← Nat.xor_assoc]

theorem xorOfMembers_insert (m : Finset EinsumId) (h e : Nat) (he : e ∉ m) :
    EinsumSet.xorOfMembers { einsums_ := insert e m, hash_ := h }
      = e ^^^ EinsumSet.xorOfMembers { einsums_ := m, hash_ := h } := by
  simp [EinsumSet.xorOfMembers, Finset.fold_insert he]

theorem xorOfMembers_erase (m : Finset EinsumId) (h e : Nat) (he : e ∈ m) :
    EinsumSet.xorOfMembers { einsums_ := m.erase e, hash_ := h }
      = e ^^^ EinsumSet.xorOfMembers { einsums_ := m, hash_ := h } := by
  have hins := xorOfMembers_insert (m.erase e) h e (Finset.not_mem_erase e m)
  rw [Finset.insert_erase he] at hins
  rw [hins, Nat.xor_cancel_left]

theorem run_admitted (s : EinsumSet) (op : EinsumOp) (h : s.admits op = true) :
    (s.run op).GetHash ^^^ (s.run op).xorOfMembers = s.GetHash ^^^ s.xorOfMembers := by
  obtain ⟨m, k⟩ := s
  cases op with
  | add e =>
    have he : e ∉ m := by simpa [EinsumSet.admits] using h
    show (k ^^^ e) ^^^ EinsumSet.xorOfMembers { einsums_ := insert e m, hash_ := k ^^^ e } = _
    rw [xorOfMembers_insert m _ e he, Nat.xor_assoc, Nat.xor_cancel_left]
    rfl
  | remove e =>
    have he : e ∈ m := by simpa [EinsumSet.admits] using h
    show (k ^^^ e) ^^^ EinsumSet.xorOfMembers { einsums_ := m.erase e, hash_ := k ^^^ e } = _
    rw [xorOfMembers_erase m _ e he, Nat.xor_assoc, Nat.xor_cancel_left]
    rfl

/-- For two EinsumSets whose hash is the XOR of their members, having the same member set is
the same as being the same value. -/
theorem equals_of_hash_in_step (a b : EinsumSet) (ha : a.GetHash = a.xorOfMembers)
    (hb : b.GetHash = b.xorOfMembers) : decide (a = b) = a.Equals b := by
  obtain ⟨ma, ka⟩ := a
  obtain ⟨mb, kb⟩ := b
  simp only [EinsumSet.GetHash, EinsumSet.xorOfMembers] at ha hb
  by_cases hm : ma = mb
  · subst hm
    have hk : ka = kb := by rw [ha, hb]
    simp [EinsumSet.Equals, hk]
  · simp [EinsumSet.Equals, hm]

/-! ## Helper lemmas on Memo -/

namespace Memo

variable {T : Type}

/-- The test of `find` succeeds exactly on a node whose key has the member set and the hash of
the searched key. -/
theorem keyMatch_eq (key : EinsumSet) (node : EinsumSet × T) :
    keyMatch key node = decide (node.1 = key) := by
  obtain ⟨⟨m1, h1⟩, v⟩ := node
  obtain ⟨m2, h2⟩ := key
  by_cases hm : m1 = m2 <;> by_cases hh : h1 = h2 <;>
    simp [keyMatch, hashEinsumSet, EinsumSet.GetHash, EinsumSet.Equals, hm, hh]

theorem find_eq (m : Memo T) (key : EinsumSet) :
    m.find key = m.memo_.find? (fun node => decide (node.1 = key)) := by
  unfold find
  congr 1
  funext node
  exact keyMatch_eq key node

theorem get_empty (s : EinsumSet) : (empty : Memo T).GetMemoizedValue s = none := rfl

/-- What a lookup gives after one more `Memoize` call. -/
theorem get_memoize (m : Memo T) (k s : EinsumSet) (v : T) :
    (m.Memoize k v).GetMemoizedValue s =
      match m.GetMemoizedValue s with
      | some x => some x
      | none => if k = s then some v else none := by
  unfold Memoize GetMemoizedValue
  rw [find_eq m k, find_eq m s]
  cases hk : m.memo_.find? (fun node => decide (node.1 = k)) with
  | some n =>
    simp only [find_eq]
    cases hs : m.memo_.find? (fun node => decide (node.1 = s)) with
    | some n2 => rfl
    | none =>
      have hne : k ≠ s := by
        intro h
        subst h
        rw [hk] at hs
        cases hs
      simp [hne]
  | none =>
    simp only [find_eq, List.find?_append]
    cases hs : m.memo_.find? (fun node => decide (node.1 = s)) with
    | some n2 => simp
    | none =>
      by_cases h : k = s <;> simp [h]

theorem get_memoizeAll (calls : List (EinsumSet × T)) (m : Memo T) (s : EinsumSet) :
    (m.memoizeAll calls).GetMemoizedValue s =
      match m.GetMemoizedValue s with
      | some x => some x
      | none => (calls.find? (fun c => decide (c.1 = s))).map Prod.snd := by
  induction calls generalizing m with
  | nil => cases h : m.GetMemoizedValue s <;> simp [memoizeAll, h]
  | cons c cs ih =>
    have hstep : m.memoizeAll (c :: cs) = (m.Memoize c.1 c.2).memoizeAll cs := rfl
    rw [hstep, ih, get_memoize]
    cases h : m.GetMemoizedValue s with
    | some x => rfl
    | none =>
      by_cases hc : c.1 = s <;> simp [hc, List.find?_cons]

end Memo

/-! ## Helper lemmas on the signal handler -/

theorem deliverAll_exited (strsignal : Int → String) (signals : List Int) (st : ProcState)
    (h : st.exited = true) : deliverAll strsignal st signals = st := by
  induction signals with
  | nil => rfl
  | cons s rest ih =>
    have hstep : deliverAll strsignal st (s :: rest)
        = deliverAll strsignal (deliver strsignal st s) rest := rfl
    have hd : deliver strsignal st s = st := by simp [deliver, h]
    rw [hstep, hd, ih]

theorem deliverAll_append (strsignal : Int → String) (st : ProcState) (xs ys : List Int) :
    deliverAll strsignal st (xs ++ ys)
      = deliverAll strsignal (deliverAll strsignal st xs) ys := by
  simp [deliverAll, List.foldl_append]

theorem deliver_keeps_flag (strsignal : Int → String) (st : ProcState) (s : Int)
    (h : st.gTerminateEval = true) : (deliver strsignal st s).gTerminateEval = true := by
  unfold deliver handler
  by_cases he : st.exited = true <;> simp [he, h]

/-! ## Theorems on EinsumSet -/

/-- C6 as stated fails at the set with the one member 1 (hash 1) and `e = 1`: AddEinsum(1)
leaves the member set as it is, RemoveEinsum(1) then erases the member the set had, and the
member set is empty afterwards. -/
theorem C6_add_remove_member_counterexample :
    ¬ (((({ einsums_ := {1}, hash_ := 1 } : EinsumSet).AddEinsum 1).RemoveEinsum 1).einsums_
          = ({ einsums_ := {1}, hash_ := 1 } : EinsumSet).einsums_ ∧
       ((({ einsums_ := {1}, hash_ := 1 } : EinsumSet).AddEinsum 1).RemoveEinsum 1).GetHash
          = ({ einsums_ := {1}, hash_ := 1 } : EinsumSet).GetHash) := by
  decide

/-- C6 (amended): for an id `e` that is not a member of `s`, AddEinsum(e) followed by
RemoveEinsum(e) gives back the member set and the GetHash() value of `s`. -/
theorem C6_add_then_remove_undo (s : EinsumSet) (e : EinsumId) (he : e ∉ s.einsums_) :
    ((s.AddEinsum e).RemoveEinsum e).einsums_ = s.einsums_ ∧
    ((s.AddEinsum e).RemoveEinsum e).GetHash = s.GetHash := by
  constructor
  · simp [EinsumSet.AddEinsum, EinsumSet.RemoveEinsum, Finset.erase_insert he]
  · simp [EinsumSet.AddEinsum, EinsumSet.RemoveEinsum, EinsumSet.GetHash, Nat.xor_cancel_right]

theorem C6_add_then_remove_undo_witness :
    (5 ∉ ({ einsums_ := {2}, hash_ := 2 } : EinsumSet).einsums_) ∧
    ((({ einsums_ := {2}, hash_ := 2 } : EinsumSet).AddEinsum 5).RemoveEinsum 5).einsums_
        = ({ einsums_ := {2}, hash_ := 2 } : EinsumSet).einsums_ ∧
    ((({ einsums_ := {2}, hash_ := 2 } : EinsumSet).AddEinsum 5).RemoveEinsum 5).GetHash
        = ({ einsums_ := {2}, hash_ := 2 } : EinsumSet).GetHash :=
  ⟨by decide, C6_add_then_remove_undo { einsums_ := {2}, hash_ := 2 } 5 (by decide)⟩

/-- C7 fails on the code: from a value-initialised empty EinsumSet (hash 0), the calls
AddEinsum(1), AddEinsum(1) and the single call AddEinsum(1) give the same member set, the set
with the one member 1, but the GetHash() values 0 and 1; and 0 is not the XOR of the members of
the first set, which is 1. -/
theorem C7_repeated_add_desynchronises_hash :
    ((EinsumSet.fresh 0).runAll [.add 1, .add 1]).einsums_
        = ((EinsumSet.fresh 0).runAll [.add 1]).einsums_ ∧
    ((EinsumSet.fresh 0).runAll [.add 1, .add 1]).GetHash = 0 ∧
    ((EinsumSet.fresh 0).runAll [.add 1]).GetHash = 1 ∧
    ((EinsumSet.fresh 0).runAll [.add 1, .add 1]).xorOfMembers = 1 := by
  decide

/-- X1: along a sequence of calls in which every AddEinsum is made on an id that is not a member
and every RemoveEinsum on an id that is one, starting from a default-constructed EinsumSet
whose hash is `h0`, GetHash() is `h0` XOR the XOR of the ids in the member set; from a
value-initialised set (`h0 = 0`) it is the XOR of the ids in the member set. -/
theorem hash_is_xor_of_members_under_discipline (h0 : Nat) (ops : List EinsumOp)
    (hops : (EinsumSet.fresh h0).admitsAll ops = true) :
    ((EinsumSet.fresh h0).runAll ops).GetHash
      = h0 ^^^ ((EinsumSet.fresh h0).runAll ops).xorOfMembers := by
  have key : ∀ (l : List EinsumOp) (s : EinsumSet), s.admitsAll l = true →
      (s.runAll l).GetHash ^^^ (s.runAll l).xorOfMembers = s.GetHash ^^^ s.xorOfMembers := by
    intro l
    induction l with
    | nil => intro s _; rfl
    | cons op rest ih =>
      intro s h
      have h2 : s.admits op = true ∧ (s.run op).admitsAll rest = true := by
        simpa [EinsumSet.admitsAll] using h
      have hstep : s.runAll (op :: rest) = (s.run op).runAll rest := rfl
      rw [hstep, ih (s.run op) h2.2, run_admitted s op h2.1]
  have hk := key ops (EinsumSet.fresh h0) hops
  have hfresh : (EinsumSet.fresh h0).GetHash ^^^ (EinsumSet.fresh h0).xorOfMembers = h0 := by
    simp [EinsumSet.fresh, EinsumSet.GetHash, EinsumSet.xorOfMembers]
  rw [hfresh] at hk
  generalize ((EinsumSet.fresh h0).runAll ops).GetHash = g at hk ⊢
  generalize ((EinsumSet.fresh h0).runAll ops).xorOfMembers = x at hk ⊢
  rw [← hk, Nat.xor_assoc, Nat.xor_self, Nat.xor_zero]

theorem hash_is_xor_of_members_under_discipline_witness :
    (EinsumSet.fresh 0).admitsAll [.add 1, .add 2, .remove 1, .add 7] = true ∧
    ((EinsumSet.fresh 0).runAll [.add 1, .add 2, .remove 1, .add 7]).GetHash
      = 0 ^^^ ((EinsumSet.fresh 0).runAll [.add 1, .add 2, .remove 1, .add 7]).xorOfMembers :=
  ⟨by decide,
    hash_is_xor_of_members_under_discipline 0 [.add 1, .add 2, .remove 1, .add 7] (by decide)⟩

/-- X2: for every EinsumSet and every id, member or not, AddEinsum(e) followed by RemoveEinsum(e)
gives back the GetHash() value, and the member set is the one at the start without `e`. -/
theorem add_then_remove_any_id (s : EinsumSet) (e : EinsumId) :
    ((s.AddEinsum e).RemoveEinsum e).GetHash = s.GetHash ∧
    ((s.AddEinsum e).RemoveEinsum e).einsums_ = s.einsums_.erase e := by
  simp [EinsumSet.AddEinsum, EinsumSet.RemoveEinsum, EinsumSet.GetHash, Nat.xor_cancel_right]

/-- C8: for two calls (each AddEinsum or RemoveEinsum) on two different ids, making them in one
order gives the same member set and the same GetHash() value as making them in the opposite
order. -/
theorem C8_calls_commute (s : EinsumSet) (opA opB : EinsumOp)
    (hab : opA.target ≠ opB.target) :
    ((s.run opA).run opB).einsums_ = ((s.run opB).run opA).einsums_ ∧
    ((s.run opA).run opB).GetHash = ((s.run opB).run opA).GetHash := by
  cases opA with
  | add a =>
    cases opB with
    | add b =>
      simp [EinsumSet.run, EinsumSet.AddEinsum, EinsumSet.GetHash, xor_swap _ a b,
        Finset.Insert.comm]
    | remove b =>
      have h : a ≠ b := hab
      simp [EinsumSet.run, EinsumSet.AddEinsum, EinsumSet.RemoveEinsum, EinsumSet.GetHash,
        xor_swap _ a b, Finset.erase_insert_of_ne h]
  | remove a =>
    cases opB with
    | add b =>
      have h : b ≠ a := Ne.symm hab
      simp [EinsumSet.run, EinsumSet.AddEinsum, EinsumSet.RemoveEinsum, EinsumSet.GetHash,
        xor_swap _ a b, Finset.erase_insert_of_ne h]
    | remove b =>
      simp [EinsumSet.run, EinsumSet.RemoveEinsum, EinsumSet.GetHash, xor_swap _ a b,
        Finset.erase_right_comm]

theorem C8_calls_commute_witness :
    (EinsumOp.add 1).target ≠ (EinsumOp.remove 3).target ∧
    ((({ einsums_ := {3}, hash_ := 3 } : EinsumSet).run (.add 1)).run (.remove 3)).einsums_
      = ((({ einsums_ := {3}, hash_ := 3 } : EinsumSet).run (.remove 3)).run (.add 1)).einsums_ ∧
    ((({ einsums_ := {3}, hash_ := 3 } : EinsumSet).run (.add 1)).run (.remove 3)).GetHash
      = ((({ einsums_ := {3}, hash_ := 3 } : EinsumSet).run (.remove 3)).run (.add 1)).GetHash :=
  ⟨by decide, C8_calls_commute { einsums_ := {3}, hash_ := 3 } (.add 1) (.remove 3) (by decide)⟩

/-! ## Theorems on Memo -/

/-- C3 fails on the code: the EinsumSet built by AddEinsum(1) and the one built by
AddEinsum(1), AddEinsum(1), both from a value-initialised empty set, have the same member set
and so are equal, yet their GetHash() values are 1 and 0.  After Memoize of the first with the
value 10 on the empty table, GetMemoizedValue of the first gives 10 and GetMemoizedValue of
the second gives nullopt: the hash lookup never reaches the stored node. -/
theorem C3_lookup_misses_equal_set :
    ((EinsumSet.fresh 0).runAll [.add 1]).Equals
        ((EinsumSet.fresh 0).runAll [.add 1, .add 1]) = true ∧
    ((EinsumSet.fresh 0).runAll [.add 1]).GetHash = 1 ∧
    ((EinsumSet.fresh 0).runAll [.add 1, .add 1]).GetHash = 0 ∧
    ((Memo.empty : Memo Nat).Memoize ((EinsumSet.fresh 0).runAll [.add 1]) 10).GetMemoizedValue
        ((EinsumSet.fresh 0).runAll [.add 1]) = some 10 ∧
    ((Memo.empty : Memo Nat).Memoize ((EinsumSet.fresh 0).runAll [.add 1]) 10).GetMemoizedValue
        ((EinsumSet.fresh 0).runAll [.add 1, .add 1]) = none := by
  decide

/-- X3: on a table built from the empty one by any sequence of Memoize calls,
GetMemoizedValue(s) returns the value of the first call whose key has the member set and the
GetHash() value of `s`, and nullopt when there is no such call; on any table without an entry
for `s`, Memoize(s, v) followed by GetMemoizedValue(s) returns `v`; and GetMemoizedValue on
the empty table returns nullopt for every `s`. -/
theorem lookup_after_memoize_calls {T : Type} (calls : List (EinsumSet × T)) (m : Memo T)
    (s : EinsumSet) (v : T) :
    ((Memo.empty.memoizeAll calls).GetMemoizedValue s
        = (calls.find? (fun c => decide (c.1 = s))).map Prod.snd) ∧
    (m.GetMemoizedValue s = none → (m.Memoize s v).GetMemoizedValue s = some v) ∧
    ((Memo.empty : Memo T).GetMemoizedValue s = none) := by
  refine ⟨?_, ?_, rfl⟩
  · rw [Memo.get_memoizeAll, Memo.get_empty]
  · intro h
    rw [Memo.get_memoize, h]
    simp

/-- X4: when the GetHash() value of `s` and of every key passed to Memoize is the XOR of its
members, GetMemoizedValue(s) on the table built from the empty one by those calls returns the
value of the first call whose key has the member set of `s`, and nullopt when there is no such
call. -/
theorem lookup_by_member_set_when_hash_in_step {T : Type} (calls : List (EinsumSet × T))
    (s : EinsumSet) (hs : s.GetHash = s.xorOfMembers)
    (hcalls : ∀ c ∈ calls, c.1.GetHash = c.1.xorOfMembers) :
    (Memo.empty.memoizeAll calls).GetMemoizedValue s
      = (calls.find? (fun c => c.1.Equals s)).map Prod.snd := by
  rw [Memo.get_memoizeAll, Memo.get_empty]
  show (calls.find? (fun c => decide (c.1 = s))).map Prod.snd = _
  have hfind : ∀ (l : List (EinsumSet × T)), (∀ c ∈ l, c.1.GetHash = c.1.xorOfMembers) →
      l.find? (fun c => decide (c.1 = s)) = l.find? (fun c => c.1.Equals s) := by
    intro l
    induction l with
    | nil => intro _; rfl
    | cons c rest ih =>
      intro hl
      have hc := hl c (List.mem_cons_self c rest)
      have hrest := ih (fun d hd => hl d (List.mem_cons_of_mem c hd))
      have hsame : decide (c.1 = s) = c.1.Equals s := equals_of_hash_in_step c.1 s hc hs
      simp only [List.find?_cons, hsame, hrest]
  rw [hfind calls hcalls]

theorem lookup_by_member_set_when_hash_in_step_witness :
    ({ einsums_ := {1, 2}, hash_ := 3 } : EinsumSet).GetHash
        = ({ einsums_ := {1, 2}, hash_ := 3 } : EinsumSet).xorOfMembers ∧
    ((Memo.empty : Memo Nat).memoizeAll
        [({ einsums_ := {3}, hash_ := 3 }, 10), ({ einsums_ := {1, 2}, hash_ := 3 }, 20)]
      ).GetMemoizedValue { einsums_ := {1, 2}, hash_ := 3 } = some 20 :=
  ⟨by decide,
    lookup_by_member_set_when_hash_in_step
      [({ einsums_ := {3}, hash_ := 3 }, 10), ({ einsums_ := {1, 2}, hash_ := 3 }, 20)]
      { einsums_ := {1, 2}, hash_ := 3 } (by decide) (by decide)⟩

/-- C4: for two EinsumSets `a` and `b` with different member sets and equal GetHash() values,
the two keys collide under `std::hash<EinsumSet>` and the key comparison tells them apart;
after Memoize(a, v) on the empty table GetMemoizedValue(b) is nullopt, and after a further
Memoize(b, w) GetMemoizedValue(b) is `w` while GetMemoizedValue(a) is still `v`. -/
theorem C4_keys_compared_by_members {T : Type} (a b : EinsumSet) (v w : T)
    (hmem : a.einsums_ ≠ b.einsums_) (hhash : a.GetHash = b.GetHash) :
    (hashEinsumSet a = hashEinsumSet b ∧ a.Equals b = false) ∧
    (Memo.empty.Memoize a v).GetMemoizedValue b = none ∧
    ((Memo.empty.Memoize a v).Memoize b w).GetMemoizedValue b = some w ∧
    ((Memo.empty.Memoize a v).Memoize b w).GetMemoizedValue a = some v := by
  have hab : a ≠ b := fun h => hmem (by rw [h])
  refine ⟨⟨hhash, by simp [EinsumSet.Equals, hmem]⟩, ?_, ?_, ?_⟩
  · simp [Memo.get_memoize, Memo.get_empty, hab]
  · simp [Memo.get_memoize, Memo.get_empty, hab]
  · simp [Memo.get_memoize, Memo.get_empty]

theorem C4_keys_compared_by_members_witness :
    ({ einsums_ := {1, 2}, hash_ := 3 } : EinsumSet).einsums_
        ≠ ({ einsums_ := {3}, hash_ := 3 } : EinsumSet).einsums_ ∧
    ({ einsums_ := {1, 2}, hash_ := 3 } : EinsumSet).GetHash
        = ({ einsums_ := {3}, hash_ := 3 } : EinsumSet).GetHash ∧
    ((hashEinsumSet { einsums_ := {1, 2}, hash_ := 3 }
        = hashEinsumSet { einsums_ := {3}, hash_ := 3 } ∧
      ({ einsums_ := {1, 2}, hash_ := 3 } : EinsumSet).Equals
        { einsums_ := {3}, hash_ := 3 } = false) ∧
     (Memo.empty.Memoize { einsums_ := {1, 2}, hash_ := 3 } 10).GetMemoizedValue
        { einsums_ := {3}, hash_ := 3 } = none ∧
     ((Memo.empty.Memoize { einsums_ := {1, 2}, hash_ := 3 } 10).Memoize
        { einsums_ := {3}, hash_ := 3 } 20).GetMemoizedValue
        { einsums_ := {3}, hash_ := 3 } = some 20 ∧
     ((Memo.empty.Memoize { einsums_ := {1, 2}, hash_ := 3 } 10).Memoize
        { einsums_ := {3}, hash_ := 3 } 20).GetMemoizedValue
        { einsums_ := {1, 2}, hash_ := 3 } = some 10) :=
  ⟨by decide, by decide,
    C4_keys_compared_by_members { einsums_ := {1, 2}, hash_ := 3 }
      { einsums_ := {3}, hash_ := 3 } 10 20 (by decide) (by decide)⟩

/-- C5: on a table where GetMemoizedValue(s) gives `v`, Memoize(s, w) leaves the table as it
is, so GetMemoizedValue(s) still gives `v`. -/
theorem C5_memoize_write_once {T : Type} (m : Memo T) (s : EinsumSet) (v w : T)
    (h : m.GetMemoizedValue s = some v) :
    m.Memoize s w = m ∧ (m.Memoize s w).GetMemoizedValue s = some v := by
  have hm : m.Memoize s w = m := by
    unfold Memo.GetMemoizedValue at h
    unfold Memo.Memoize
    cases hf : m.find s with
    | some n => rfl
    | none => rw [hf] at h; cases h
  exact ⟨hm, by rw [hm]; exact h⟩

theorem C5_memoize_write_once_witness :
    (Memo.empty.Memoize { einsums_ := {1}, hash_ := 1 } 10).GetMemoizedValue
        { einsums_ := {1}, hash_ := 1 } = some 10 ∧
    ((Memo.empty.Memoize { einsums_ := {1}, hash_ := 1 } 10).Memoize
        { einsums_ := {1}, hash_ := 1 } 20
      = Memo.empty.Memoize { einsums_ := {1}, hash_ := 1 } 10 ∧
     ((Memo.empty.Memoize { einsums_ := {1}, hash_ := 1 } 10).Memoize
        { einsums_ := {1}, hash_ := 1 } 20).GetMemoizedValue
        { einsums_ := {1}, hash_ := 1 } = some 10) :=
  ⟨by decide,
    C5_memoize_write_once (Memo.empty.Memoize { einsums_ := {1}, hash_ := 1 } 10)
      { einsums_ := {1}, hash_ := 1 } 10 20 (by decide)⟩

/-- C10: for two EinsumSets `s` and `t` that are not equal (they differ in the member set; a
difference in the hash alone is covered too), GetMemoizedValue(t) gives the same result after
Memoize(s, v) as before it. -/
theorem C10_memoize_frame {T : Type} (m : Memo T) (s t : EinsumSet) (v : T) (hst : s ≠ t) :
    (m.Memoize s v).GetMemoizedValue t = m.GetMemoizedValue t := by
  rw [Memo.get_memoize]
  cases h : m.GetMemoizedValue t with
  | some x => rfl
  | none => simp [hst]

theorem C10_memoize_frame_witness :
    ({ einsums_ := {2}, hash_ := 2 } : EinsumSet) ≠ { einsums_ := {1}, hash_ := 1 } ∧
    ((Memo.empty.Memoize { einsums_ := {1}, hash_ := 1 } 10).Memoize
        { einsums_ := {2}, hash_ := 2 } 20).GetMemoizedValue { einsums_ := {1}, hash_ := 1 }
      = (Memo.empty.Memoize { einsums_ := {1}, hash_ := 1 } 10).GetMemoizedValue
          { einsums_ := {1}, hash_ := 1 } :=
  ⟨by decide,
    C10_memoize_frame (Memo.empty.Memoize { einsums_ := {1}, hash_ := 1 } 10)
      { einsums_ := {2}, hash_ := 2 } { einsums_ := {1}, hash_ := 1 } 20 (by decide)⟩

/-! ## Theorems on Mapper::Run -/

/-- C1: when the memo table of the Mapper holds `v` for `rest_of_einsums`, Run(cur_fused_set,
rest_of_einsums) returns `v`, whatever `cur_fused_set` is, and leaves the memo table and
`cur_fused_set` as they were. -/
theorem C1_run_memo_hit {MapperResult : Type} (self : Mapper MapperResult)
    (cur_fused_set rest_of_einsums : EinsumSet) (v : MapperResult)
    (hhit : self.memo_.GetMemoizedValue rest_of_einsums = some v) :
    (self.Run cur_fused_set rest_of_einsums).returned = some v ∧
    (self.Run cur_fused_set rest_of_einsums).mapper.memo_ = self.memo_ ∧
    (self.Run cur_fused_set rest_of_einsums).cur_fused_set = cur_fused_set := by
  unfold Mapper.Run
  rw [hhit]
  exact ⟨rfl, rfl, rfl⟩

theorem C1_run_memo_hit_witness :
    (Memo.empty.Memoize { einsums_ := {1}, hash_ := 1 } 10).GetMemoizedValue
        { einsums_ := {1}, hash_ := 1 } = some 10 ∧
    ((Mapper.mk (Memo.empty.Memoize { einsums_ := {1}, hash_ := 1 } 10)).Run
        { einsums_ := {7}, hash_ := 7 } { einsums_ := {1}, hash_ := 1 }).returned = some 10 ∧
    ((Mapper.mk (Memo.empty.Memoize { einsums_ := {1}, hash_ := 1 } 10)).Run
        { einsums_ := {7}, hash_ := 7 } { einsums_ := {1}, hash_ := 1 }).mapper.memo_
      = Memo.empty.Memoize { einsums_ := {1}, hash_ := 1 } 10 ∧
    ((Mapper.mk (Memo.empty.Memoize { einsums_ := {1}, hash_ := 1 } 10)).Run
        { einsums_ := {7}, hash_ := 7 } { einsums_ := {1}, hash_ := 1 }).cur_fused_set
      = { einsums_ := {7}, hash_ := 7 } :=
  ⟨by decide,
    C1_run_memo_hit (Mapper.mk (Memo.empty.Memoize { einsums_ := {1}, hash_ := 1 } 10))
      { einsums_ := {7}, hash_ := 7 } { einsums_ := {1}, hash_ := 1 } 10 (by decide)⟩

/-- C2 fails on the code: when the memo table holds nothing for `rest_of_einsums`, Run builds
an empty `dfs_stack`, skips the loop and reaches the end of the function: no `return`
statement is executed, Memoize is never called, and GetMemoizedValue(rest_of_einsums) is
still nullopt afterwards. -/
theorem C2_run_miss_returns_nothing {MapperResult : Type} (self : Mapper MapperResult)
    (cur_fused_set rest_of_einsums : EinsumSet)
    (hmiss : self.memo_.GetMemoizedValue rest_of_einsums = none) :
    (self.Run cur_fused_set rest_of_einsums).returned = none ∧
    (self.Run cur_fused_set rest_of_einsums).mapper.memo_ = self.memo_ ∧
    (self.Run cur_fused_set rest_of_einsums).cur_fused_set = cur_fused_set ∧
    (self.Run cur_fused_set rest_of_einsums).mapper.memo_.GetMemoizedValue rest_of_einsums
      = none := by
  unfold Mapper.Run
  rw [hmiss]
  exact ⟨rfl, rfl, rfl, hmiss⟩

theorem C2_run_miss_returns_nothing_witness :
    ((Mapper.mk (Memo.empty : Memo Nat)).Run (EinsumSet.fresh 0)
        { einsums_ := {1}, hash_ := 1 }).returned = none ∧
    ((Mapper.mk (Memo.empty : Memo Nat)).Run (EinsumSet.fresh 0)
        { einsums_ := {1}, hash_ := 1 }).mapper.memo_.GetMemoizedValue
        { einsums_ := {1}, hash_ := 1 } = none :=
  have h := C2_run_miss_returns_nothing (Mapper.mk (Memo.empty : Memo Nat))
    (EinsumSet.fresh 0) { einsums_ := {1}, hash_ := 1 } rfl
  ⟨h.1, h.2.2.2⟩

/-! ## Theorems on the signal handler -/

/-- C9: with `gTerminateEval` false, handler(s) sets it to true, writes the one line of the
first notice and leaves the exit status as it is (it does not call `exit`); with
`gTerminateEval` true, handler(s) writes the one line of the second notice, calls `exit(0)`
and leaves the flag true.  A delivered signal never takes the flag from true to false.  From
the start state, after any sequence of signals the flag is set exactly when at least one
signal came, the process has exited exactly when at least two came, and as many lines are
written as signals came, at most two. -/
theorem C9_two_stage_cancellation (strsignal : Int → String) :
    (∀ (s : Int) (st : ProcState), st.gTerminateEval = false →
      (handler strsignal s st).gTerminateEval = true ∧
      (handler strsignal s st).cerr = st.cerr ++ [firstNotice strsignal s] ∧
      (handler strsignal s st).exitStatus = st.exitStatus) ∧
    (∀ (s : Int) (st : ProcState), st.gTerminateEval = true →
      (handler strsignal s st).gTerminateEval = true ∧
      (handler strsignal s st).cerr = st.cerr ++ [secondNotice strsignal s] ∧
      (handler strsignal s st).exitStatus = some 0) ∧
    (∀ (s : Int) (st : ProcState), st.gTerminateEval = true →
      (handler strsignal s st).gTerminateEval = true ∧
      (deliver strsignal st s).gTerminateEval = true) ∧
    (∀ (signals : List Int),
      (deliverAll strsignal ProcState.start signals).gTerminateEval
        = decide (1 ≤ signals.length) ∧
      (deliverAll strsignal ProcState.start signals).exited = decide (2 ≤ signals.length) ∧
      (deliverAll strsignal ProcState.start signals).cerr.length = min signals.length 2) := by
  refine ⟨?_, ?_, ?_, ?_⟩
  · intro s st h
    simp [handler, h]
  · intro s st h
    simp [handler, h]
  · intro s st h
    exact ⟨by simp [handler, h], deliver_keeps_flag strsignal st s h⟩
  · intro signals
    match signals with
    | [] => exact ⟨rfl, rfl, rfl⟩
    | [s1] => exact ⟨rfl, rfl, rfl⟩
    | s1 :: s2 :: rest =>
      have hsplit : deliverAll strsignal ProcState.start (s1 :: s2 :: rest)
          = deliverAll strsignal
              (deliverAll strsignal ProcState.start [s1, s2]) rest := by
        rw [← deliverAll_append]
        rfl
      have hex : (deliverAll strsignal ProcState.start [s1, s2]).exited = true := rfl
      rw [hsplit, deliverAll_exited strsignal rest _ hex]
      refine ⟨?_, ?_, ?_⟩
      · simp [deliverAll, deliver, handler, ProcState.start, ProcState.exited]
      · simp [deliverAll, deliver, handler, ProcState.start, ProcState.exited]
      · simp [deliverAll, deliver, handler, ProcState.start, ProcState.exited]

theorem C9_two_stage_cancellation_witness :
    (deliverAll (fun _ => "Interrupt") ProcState.start [2]).exited = false ∧
    (deliverAll (fun _ => "Interrupt") ProcState.start [2, 2]).exited = true ∧
    (deliverAll (fun _ => "Interrupt") ProcState.start [2, 2, 2]).cerr.length = 2 :=
  ⟨((C9_two_stage_cancellation (fun _ => "Interrupt")).2.2.2 [2]).2.1,
   ((C9_two_stage_cancellation (fun _ => "Interrupt")).2.2.2 [2, 2]).2.1,
   ((C9_two_stage_cancellation (fun _ => "Interrupt")).2.2.2 [2, 2, 2]).2.2⟩

end LooptreeMapper
